import Mathlib

/-!
A verification development for the context-vacuum cache-consistency and
composition engine.  The Go sources are shallowly embedded: pure helpers
become Lean functions, the SQLite-backed store becomes an explicit record
of rows threaded through each operation, and fallible collaborators
(file/URL parsing, row updates, file writes) are injected through an
explicit environment so that failure behaviour can be stated and proved.
-/

/-! ## SHA-256 (crypto/sha256), used by storage.ComputeHash -/

/-- Right rotation of a 32-bit word. -/
def rotr32 (n x : Nat) : Nat :=
  ((x >>> n) ||| (x <<< (32 - n))) % 4294967296

/-- `Ch` function of SHA-256. -/
def sha256Ch (x y z : Nat) : Nat :=
  (x &&& y) ^^^ ((x ^^^ 4294967295) &&& z)

/-- `Maj` function of SHA-256. -/
def sha256Maj (x y z : Nat) : Nat :=
  (x &&& y) ^^^ (x &&& z) ^^^ (y &&& z)

/-- Big sigma-0. -/
def sha256S0 (x : Nat) : Nat := rotr32 2 x ^^^ rotr32 13 x ^^^ rotr32 22 x

/-- Big sigma-1. -/
def sha256S1 (x : Nat) : Nat := rotr32 6 x ^^^ rotr32 11 x ^^^ rotr32 25 x

/-- Small sigma-0. -/
def sha256s0 (x : Nat) : Nat := rotr32 7 x ^^^ rotr32 18 x ^^^ (x >>> 3)

/-- Small sigma-1. -/
def sha256s1 (x : Nat) : Nat := rotr32 17 x ^^^ rotr32 19 x ^^^ (x >>> 10)

/-- The 64 SHA-256 round constants. -/
def sha256K : List Nat :=
  [1116352408, 1899447441, 3049323471, 3921009573, 961987163,
   1508970993, 2453635748, 2870763221, 3624381080, 310598401,
   607225278, 1426881987, 1925078388, 2162078206, 2614888103,
   3248222580, 3835390401, 4022224774, 264347078, 604807628,
   770255983, 1249150122, 1555081692, 1996064986, 2554220882,
   2821834349, 2952996808, 3210313671, 3336571891, 3584528711,
   113926993, 338241895, 666307205, 773529912, 1294757372,
   1396182291, 1695183700, 1986661051, 2177026350, 2456956037,
   2730485921, 2820302411, 3259730800, 3345764771, 3516065817,
   3600352804, 4094571909, 275423344, 430227734, 506948616,
   659060556, 883997877, 958139571, 1322822218, 1537002063,
   1747873779, 1955562222, 2024104815, 2227730452, 2361852424,
   2428436474, 2756734187, 3204031479, 3329325298]

/-- Initial SHA-256 hash state. -/
def sha256H0 : List Nat :=
  [1779033703, 3144134277, 1013904242, 2773480762,
   1359893119, 2600822924, 528734635, 1541459225]

/-- Big-endian byte decomposition of a number into `k` bytes. -/
def beBytes (k n : Nat) : List Nat :=
  (List.range k).map fun i => (n >>> (8 * (k - 1 - i))) % 256

/-- SHA-256 message padding: append `0x80`, zeros, then the 64-bit
big-endian bit length, reaching a multiple of 64 bytes. -/
def sha256Pad (msg : List Nat) : List Nat :=
  let len := msg.length
  let zeros := (119 - len % 64) % 64
  msg ++ [0x80] ++ List.replicate zeros 0 ++ beBytes 8 (8 * len)

/-- Split a byte list into successive 64-byte blocks (fuel-driven). -/
def chunks64 : Nat → List Nat → List (List Nat)
  | 0, _ => []
  | _, [] => []
  | fuel + 1, l => l.take 64 :: chunks64 fuel (l.drop 64)

/-- Assemble each group of 4 bytes into a big-endian 32-bit word. -/
def bytesToWords : List Nat → List Nat
  | b0 :: b1 :: b2 :: b3 :: rest =>
    (((b0 <<< 24) ||| (b1 <<< 16) ||| (b2 <<< 8) ||| b3) % 4294967296)
      :: bytesToWords rest
  | _ => []

/-- Extend 16 message words to the 64-entry schedule. -/
def sha256Schedule (w : Array Nat) : Array Nat :=
  (List.range 48).foldl
    (fun w i =>
      w.push ((sha256s1 (w.getD (i + 14) 0) + w.getD (i + 9) 0 +
               sha256s0 (w.getD (i + 1) 0) + w.getD i 0) % 4294967296))
    w

/-- One compression round over the working registers `[a,b,c,d,e,f,g,h]`. -/
def sha256Round (regs : List Nat) (kw : Nat × Nat) : List Nat :=
  match regs with
  | [a, b, c, d, e, f, g, h] =>
    let t1 := (h + sha256S1 e + sha256Ch e f g + kw.1 + kw.2) % 4294967296
    let t2 := (sha256S0 a + sha256Maj a b c) % 4294967296
    [(t1 + t2) % 4294967296, a, b, c, (d + t1) % 4294967296, e, f, g]
  | other => other

/-- Compress one 64-byte block into the running hash state. -/
def sha256Compress (state : List Nat) (block : List Nat) : List Nat :=
  let w := sha256Schedule (bytesToWords block).toArray
  let regs := (sha256K.zip w.toList).foldl sha256Round state
  (state.zip regs).map fun p => (p.1 + p.2) % 4294967296

/-- SHA-256 digest of a byte sequence, as eight 32-bit words. -/
def sha256Words (msg : List Nat) : List Nat :=
  let padded := sha256Pad msg
  (chunks64 padded.length padded).foldl sha256Compress sha256H0

/-- Lowercase hexadecimal digit. -/
def hexDigit (n : Nat) : Char :=
  if n < 10 then Char.ofNat (48 + n) else Char.ofNat (87 + n % 16)

/-- Lowercase hexadecimal rendering of one 32-bit word (8 digits). -/
def wordToHex (n : Nat) : String :=
  String.mk ((List.range 8).map fun i => hexDigit ((n >>> (4 * (7 - i))) % 16))

/-- UTF-8 bytes of a string, as `Nat`s (Go's `[]byte(content)`). -/
def strBytes (s : String) : List Nat :=
  (s.toUTF8.data.toList).map fun b => b.toNat

/-- storage.ComputeHash: lowercase-hex SHA-256 of the content's bytes. -/
def ComputeHash (content : String) : String :=
  ((sha256Words (strBytes content)).map wordToHex).foldl (· ++ ·) ""

/-- Validation against the repository's own `TestComputeHash` vector for
the empty string. -/
theorem computeHash_empty :
    ComputeHash "" =
      "e3b0c44298fc1c149afbf4c8996fb92427ae41e4649b934ca495991b7852b855" := by
  decide

/-- Validation against the repository's own `TestComputeHash` vector for
"hello world". -/
theorem computeHash_hello :
    ComputeHash "hello world" =
      "b94d27b9934d3e08a52e52d7da7dabfac484efe37a5380ee9088f7ace2efcde9" := by
  decide

/-! ## Data model (db/sqlc/schema.sql, dbgen.Source) -/

/-- One row of the `sources` table.  `enabled` is the SQLite 0/1 integer,
as in the generated Go struct. -/
structure Source where
  id : Nat
  name : String
  sourceType : String
  path : String
  content : String
  hash : String
  enabled : Nat
  createdAt : Nat
  updatedAt : Nat
deriving DecidableEq, Repr

/-- One row of the `history` table. -/
structure HistoryRecord where
  presetName : Option String
  outputPath : String
  sourceCount : Nat
  generatedAt : Nat
deriving DecidableEq, Repr

/-- The persistent store: the `sources` rows in insertion order, plus the
`history` rows.  (The presets tables are out of scope for the claims.) -/
structure Store where
  sources : List Source
  history : List HistoryRecord
deriving DecidableEq, Repr

/-- Parameters of the `CreateSource` query. -/
structure CreateSourceParams where
  name : String
  sourceType : String
  path : String
  content : String
  hash : String
  enabled : Nat
deriving DecidableEq, Repr

/-- AUTOINCREMENT id assignment: one more than the largest id in use. -/
def nextId (st : Store) : Nat :=
  (st.sources.map fun s => s.id).foldl max 0 + 1

/-- `CreateSource`: INSERT INTO sources ... RETURNING *.  Fails on the
UNIQUE(name) constraint or the CHECK constraints on `source_type` and
`enabled`; `created_at`/`updated_at` default to the current time. -/
def CreateSource (st : Store) (p : CreateSourceParams) (now : Nat) :
    Except String (Store × Source) :=
  if st.sources.any fun s => s.name == p.name then
    .error "UNIQUE constraint failed: sources.name"
  else if ¬(p.sourceType = "file" ∨ p.sourceType = "url" ∨ p.sourceType = "bookmark") then
    .error "CHECK constraint failed: source_type"
  else if ¬(p.enabled = 0 ∨ p.enabled = 1) then
    .error "CHECK constraint failed: enabled"
  else
    let src : Source :=
      { id := nextId st, name := p.name, sourceType := p.sourceType,
        path := p.path, content := p.content, hash := p.hash,
        enabled := p.enabled, createdAt := now, updatedAt := now }
    .ok ({ st with sources := st.sources ++ [src] }, src)

/-- `GetSourceByName`: SELECT ... WHERE name = ? LIMIT 1.
`none` models `sql.ErrNoRows`. -/
def GetSourceByName (st : Store) (name : String) : Option Source :=
  st.sources.find? fun s => s.name == name

/-- `GetSourceByHash`: SELECT ... WHERE hash = ? LIMIT 1. -/
def GetSourceByHash (st : Store) (hash : String) : Option Source :=
  st.sources.find? fun s => s.hash == hash

/-- `ListEnabledSources`: SELECT ... WHERE enabled = 1 ORDER BY created_at
ASC.  Modelled with a stable sort on `created_at` over the rows in
insertion order. -/
def ListEnabledSources (st : Store) : List Source :=
  List.insertionSort (fun a b => a.createdAt ≤ b.createdAt)
    (st.sources.filter fun s => s.enabled == 1)

/-- `UpdateSourceContent`: UPDATE sources SET content, hash, updated_at
WHERE id = ?.  A WHERE clause matching no row succeeds with no effect. -/
def UpdateSourceContent (st : Store) (content hash : String) (id : Nat)
    (now : Nat) : Store :=
  { st with
    sources := st.sources.map fun s =>
      if s.id == id then { s with content := content, hash := hash, updatedAt := now }
      else s }

/-- `UpdateSourceEnabled`: UPDATE sources SET enabled, updated_at
WHERE name = ?.  A WHERE clause matching no row succeeds with no effect. -/
def UpdateSourceEnabled (st : Store) (enabled : Nat) (name : String)
    (now : Nat) : Store :=
  { st with
    sources := st.sources.map fun s =>
      if s.name == name then { s with enabled := enabled, updatedAt := now }
      else s }

/-- `DeleteSource`: DELETE FROM sources WHERE name = ?.  A DELETE whose
WHERE clause matches no row succeeds with zero rows affected. -/
def DeleteSource (st : Store) (name : String) : Store :=
  { st with sources := st.sources.filter fun s => ¬(s.name == name) }

/-- `CreateHistory`: INSERT INTO history (preset_name, output_path,
source_count). -/
def CreateHistory (st : Store) (presetName : Option String)
    (outputPath : String) (sourceCount : Nat) (now : Nat) : Store :=
  { st with
    history := st.history ++
      [{ presetName := presetName, outputPath := outputPath,
         sourceCount := sourceCount, generatedAt := now }] }

/-! ## Effect environment

The parser (`internal/parser`) and the fallible side effects of the
generator are injected through an explicit environment: `parseFile` and
`parseURL` are the two `ContentFetcher` entry points, `absPath` models
`filepath.Abs`, `now` the database clock, `renderTime` the formatted
`time.Now()` used by the cursor format, and the three failure switches
model a failing `UpdateSourceContent` write, output-file write, and
history insert. -/
structure Env where
  parseFile : String → Except String String
  parseURL : String → Except String String
  absPath : String → String
  now : Nat
  renderTime : String
  updateFails : Nat → Bool
  writeFails : Bool
  historyFails : Bool

/-! ## Generator (internal/generator/generator.go) -/

/-- detectCacheMiss: dispatch on `source.SourceType`, fetch fresh content,
and report `(needsRefresh, freshContent)` or a per-source error. -/
def detectCacheMiss (env : Env) (source : Source) :
    Except String (Bool × String) :=
  if source.sourceType = "file" then
    match env.parseFile source.path with
    | .error e => .error ("failed to parse file: " ++ e)
    | .ok content =>
      if ComputeHash content ≠ source.hash then .ok (true, content)
      else .ok (false, "")
  else if source.sourceType = "url" ∨ source.sourceType = "bookmark" then
    match env.parseURL source.path with
    | .error e => .error ("failed to parse URL: " ++ e)
    | .ok content =>
      if ComputeHash content ≠ source.hash then .ok (true, content)
      else .ok (false, "")
  else
    .error ("unknown source type: " ++ source.sourceType)

/-- checkAndRefreshCache: walk the sources in order; on a fetch error or a
failed cache write keep the cached row, otherwise persist and use the
fresh content.  (The Go function's error result is statically `nil`: every
per-source failure is logged and recovered.) -/
def checkAndRefreshCache (env : Env) : Store → List Source → Store × List Source
  | st, [] => (st, [])
  | st, source :: rest =>
    match detectCacheMiss env source with
    | .error _ =>
      let r := checkAndRefreshCache env st rest
      (r.1, source :: r.2)
    | .ok (needsRefresh, freshContent) =>
      if needsRefresh then
        let hash := ComputeHash freshContent
        if env.updateFails source.id then
          let r := checkAndRefreshCache env st rest
          (r.1, source :: r.2)
        else
          let st1 := UpdateSourceContent st freshContent hash source.id env.now
          let updated := { source with content := freshContent, hash := hash }
          let r := checkAndRefreshCache env st1 rest
          (r.1, updated :: r.2)
      else
        let r := checkAndRefreshCache env st rest
        (r.1, source :: r.2)

/-- generateClaudeFormat: header, then one numbered fenced section per
source, in list order. -/
def generateClaudeFormat (sources : List Source) : String :=
  let header := "# Development Context\n\n" ++
    "The following content consists of curated context for LLM assistants.\n\n" ++
    "---\n\n"
  sources.enum.foldl
    (fun sb p =>
      sb ++ ("## " ++ toString (p.1 + 1) ++ ". " ++ p.2.name ++ "\n\n" ++
        "**Source:** " ++ p.2.path ++ " (" ++ p.2.sourceType ++ ")\n\n" ++
        "```\n" ++ p.2.content ++ "\n```\n\n" ++ "---\n\n"))
    header

/-- generateCursorFormat: timestamped header, then name heading plus raw
content per source, in list order. -/
def generateCursorFormat (renderTime : String) (sources : List Source) : String :=
  sources.foldl
    (fun sb s => sb ++ ("## " ++ s.name ++ "\n\n" ++ s.content ++ "\n\n"))
    ("# Cursor Context\n\n" ++ "Generated: " ++ renderTime ++ "\n\n")

/-- generateDefaultFormat: delimiter line with the name, then the body,
entries separated by a blank line. -/
def generateDefaultFormat (sources : List Source) : String :=
  sources.enum.foldl
    (fun sb p =>
      sb ++ ((if p.1 > 0 then "\n\n" else "") ++
        "=== " ++ p.2.name ++ " ===\n" ++ p.2.content))
    ""

/-- Options of a generation request. -/
structure GenerateOptions where
  outputPath : String
  format : String
  presetName : String
deriving DecidableEq, Repr

/-- GenerateToString: list enabled sources, reject an empty set, refresh
the cache, and render in the requested format. -/
def GenerateToString (env : Env) (st : Store) (format : String) :
    Except String (Store × String) :=
  let sources := ListEnabledSources st
  if sources.length = 0 then .error "no enabled sources found"
  else
    let r := checkAndRefreshCache env st sources
    let content :=
      if format = "claude" ∨ format = "" then generateClaudeFormat r.2
      else if format = "cursor" then generateCursorFormat env.renderTime r.2
      else generateDefaultFormat r.2
    .ok (r.1, content)

/-- Generate: like `GenerateToString` but writes the document to a file
(whose failure is fatal) and records a history row (whose failure is
logged only). -/
def Generate (env : Env) (st : Store) (opts : GenerateOptions) :
    Except String (Store × String) :=
  let sources := ListEnabledSources st
  if sources.length = 0 then .error "no enabled sources found"
  else
    let r := checkAndRefreshCache env st sources
    let content :=
      if opts.format = "claude" ∨ opts.format = "" then generateClaudeFormat r.2
      else if opts.format = "cursor" then generateCursorFormat env.renderTime r.2
      else generateDefaultFormat r.2
    if env.writeFails then .error "failed to write output file"
    else
      let presetName := if opts.presetName ≠ "" then some opts.presetName else none
      let st2 :=
        if env.historyFails then r.1
        else CreateHistory r.1 presetName opts.outputPath r.2.length env.now
      .ok (st2, content)

/-! ## CLI commands (main.go) and TUI actions (internal/tui/tui.go) -/

/-- Go `strings.HasPrefix`, char-wise on the decoded string. -/
def hasPrefixStr (s p : String) : Bool :=
  p.data.isPrefixOf s.data

/-- Common tail of the `add` command once content is fetched: hash, then
update in place if the name exists, else create. -/
def addSourceFinish (env : Env) (st : Store)
    (name sourceType path content : String) (enabled : Bool) :
    Except String (Store × String) :=
  let hash := ComputeHash content
  match GetSourceByName st name with
  | some existing =>
    .ok (UpdateSourceContent st content hash existing.id env.now,
         "Updated source: " ++ name)
  | none =>
    let enabledInt : Nat := if enabled then 1 else 0
    match CreateSource st
        { name := name, sourceType := sourceType, path := path,
          content := content, hash := hash, enabled := enabledInt } env.now with
    | .error e => .error ("failed to create source: " ++ e)
    | .ok (st', created) => .ok (st', "Added source: " ++ created.name)

/-- main.go `addSource`: detect the source type from the argument, fetch
its content, then update-or-create by name. -/
def addSource (env : Env) (st : Store) (sourceArg name : String)
    (enabled : Bool) : Except String (Store × String) :=
  if hasPrefixStr sourceArg "http://" || hasPrefixStr sourceArg "https://" then
    match env.parseURL sourceArg with
    | .error e => .error ("failed to parse URL: " ++ e)
    | .ok content => addSourceFinish env st name "url" sourceArg content enabled
  else
    let absP := env.absPath sourceArg
    match env.parseFile absP with
    | .error e => .error ("failed to parse file: " ++ e)
    | .ok content => addSourceFinish env st name "file" absP content enabled

/-- tui.go `model.addSource`: same update-or-create flow, always enabled
on creation, no message. -/
def tuiAddSource (env : Env) (st : Store) (name path : String) :
    Except String Store :=
  if hasPrefixStr path "http://" || hasPrefixStr path "https://" then
    match env.parseURL path with
    | .error e => .error ("failed to fetch URL: " ++ e)
    | .ok content =>
      let hash := ComputeHash content
      match GetSourceByName st name with
      | some existing =>
        .ok (UpdateSourceContent st content hash existing.id env.now)
      | none =>
        match CreateSource st
            { name := name, sourceType := "url", path := path,
              content := content, hash := hash, enabled := 1 } env.now with
        | .error e => .error e
        | .ok (st', _) => .ok st'
  else
    let absP := env.absPath path
    match env.parseFile absP with
    | .error e => .error ("failed to read file: " ++ e)
    | .ok content =>
      let hash := ComputeHash content
      match GetSourceByName st name with
      | some existing =>
        .ok (UpdateSourceContent st content hash existing.id env.now)
      | none =>
        match CreateSource st
            { name := name, sourceType := "file", path := absP,
              content := content, hash := hash, enabled := 1 } env.now with
        | .error e => .error e
        | .ok (st', _) => .ok st'

/-- main.go `removeSource`: DELETE by name; only a database failure (not
modelled) would surface an error. -/
def removeSource (st : Store) (name : String) : Except String Store :=
  .ok (DeleteSource st name)

/-- main.go `toggleOn`. -/
def toggleOn (env : Env) (st : Store) (name : String) : Except String Store :=
  .ok (UpdateSourceEnabled st 1 name env.now)

/-- main.go `toggleOff`. -/
def toggleOff (env : Env) (st : Store) (name : String) : Except String Store :=
  .ok (UpdateSourceEnabled st 0 name env.now)

/-- A parsed bookmark entry. -/
structure Bookmark where
  title : String
  url : String
deriving DecidableEq, Repr

/-- main.go `importBookmarks` loop body: fetch one bookmark, skip on
fetch failure, duplicate hash, or create failure; otherwise create a
disabled source and count it. -/
def importBookmarkStep (env : Env) (acc : Store × Nat) (b : Bookmark) :
    Store × Nat :=
  match env.parseURL b.url with
  | .error _ => acc
  | .ok content =>
    let hash := ComputeHash content
    match GetSourceByHash acc.1 hash with
    | some _ => acc
    | none =>
      match CreateSource acc.1
          { name := b.title, sourceType := "bookmark", path := b.url,
            content := content, hash := hash, enabled := 0 } env.now with
      | .error _ => acc
      | .ok (st', _) => (st', acc.2 + 1)

/-- main.go `importBookmarks`: fold the step over the parsed bookmarks.
Returns the store and the imported count. -/
def importBookmarks (env : Env) (st : Store) (bookmarks : List Bookmark) :
    Store × Nat :=
  bookmarks.foldl (importBookmarkStep env) (st, 0)

/-! ## Derived views used in statements -/

/-- The fetch a given source's refresh dispatches to, by `sourceType`
(the raw `ContentFetcher` call, before error-message wrapping). -/
def fetchOf (env : Env) (s : Source) : Except String String :=
  if s.sourceType = "file" then env.parseFile s.path
  else if s.sourceType = "url" ∨ s.sourceType = "bookmark" then env.parseURL s.path
  else .error "unknown source type"

/-- The fetch the `add` command dispatches to for a given argument. -/
def cliFetch (env : Env) (sourceArg : String) : Except String String :=
  if hasPrefixStr sourceArg "http://" || hasPrefixStr sourceArg "https://" then
    env.parseURL sourceArg
  else env.parseFile (env.absPath sourceArg)

/-- What reconciliation yields for one source, as a pure function of the
environment: the cached row on fetch error or failed write, the row with
fresh content and hash on a successful refresh. -/
def refreshEntry (env : Env) (source : Source) : Source :=
  match detectCacheMiss env source with
  | .error _ => source
  | .ok (needsRefresh, freshContent) =>
    if needsRefresh then
      if env.updateFails source.id then source
      else { source with content := freshContent, hash := ComputeHash freshContent }
    else source

/-- Hash-consistency invariant: every stored row's `hash` is the digest
of its stored `content`. -/
def HashConsistent (st : Store) : Prop :=
  ∀ s ∈ st.sources, s.hash = ComputeHash s.content

instance (st : Store) : Decidable (HashConsistent st) := by
  unfold HashConsistent; infer_instance

/-- The operations that write sources, for stating store invariants. -/
inductive SourceOp where
  | add (sourceArg name : String) (enabled : Bool)
  | tuiAdd (name path : String)
  | importBk (bookmarks : List Bookmark)
  | genStr (format : String)
  | gen (opts : GenerateOptions)

/-- Run one source-writing operation; `none` when it surfaced an error. -/
def runOp (env : Env) (st : Store) : SourceOp → Option Store
  | .add sourceArg name enabled =>
    ((addSource env st sourceArg name enabled).map Prod.fst).toOption
  | .tuiAdd name path => (tuiAddSource env st name path).toOption
  | .importBk bookmarks => some (importBookmarks env st bookmarks).1
  | .genStr format => ((GenerateToString env st format).map Prod.fst).toOption
  | .gen opts => ((Generate env st opts).map Prod.fst).toOption

/-! ## Rendered-section views of the three formats -/

/-- Concatenation of a list of strings, in order. -/
def concatAll : List String → String
  | [] => ""
  | s :: rest => s ++ concatAll rest

/-- The claude-format document header. -/
def claudeHeader : String :=
  "# Development Context\n\n" ++
  "The following content consists of curated context for LLM assistants.\n\n" ++
  "---\n\n"

/-- The claude-format section for the source at (0-based) index `p.1`. -/
def claudeSection (p : Nat × Source) : String :=
  "## " ++ toString (p.1 + 1) ++ ". " ++ p.2.name ++ "\n\n" ++
  "**Source:** " ++ p.2.path ++ " (" ++ p.2.sourceType ++ ")\n\n" ++
  "```\n" ++ p.2.content ++ "\n```\n\n" ++ "---\n\n"

/-- The cursor-format header for a given render time. -/
def cursorHeader (renderTime : String) : String :=
  "# Cursor Context\n\n" ++ "Generated: " ++ renderTime ++ "\n\n"

/-- The cursor-format section of one source. -/
def cursorSection (s : Source) : String :=
  "## " ++ s.name ++ "\n\n" ++ s.content ++ "\n\n"

/-- The default-format section for the source at (0-based) index `p.1`. -/
def defaultSection (p : Nat × Source) : String :=
  (if p.1 > 0 then "\n\n" else "") ++
  "=== " ++ p.2.name ++ " ===\n" ++ p.2.content

/-- Appending folds are ordered concatenations. -/
theorem foldl_append_concatAll {α : Type} (f : α → String) (l : List α) :
    ∀ init, l.foldl (fun sb a => sb ++ f a) init = init ++ concatAll (l.map f) := by
  induction l with
  | nil => intro init; simp [concatAll]
  | cons a rest ih =>
    intro init
    simp only [List.foldl, List.map, concatAll, ih, String.append_assoc]

/-- The claude format is the header followed by one section per source,
in list order. -/
theorem generateClaudeFormat_sections (l : List Source) :
    generateClaudeFormat l = claudeHeader ++ concatAll (l.enum.map claudeSection) :=
  foldl_append_concatAll claudeSection l.enum claudeHeader

/-- The cursor format is the stamped header followed by one section per
source, in list order. -/
theorem generateCursorFormat_sections (renderTime : String) (l : List Source) :
    generateCursorFormat renderTime l =
      cursorHeader renderTime ++ concatAll (l.map cursorSection) :=
  foldl_append_concatAll cursorSection l (cursorHeader renderTime)

/-- The default format is one delimited section per source, in list
order. -/
theorem generateDefaultFormat_sections (l : List Source) :
    generateDefaultFormat l = "" ++ concatAll (l.enum.map defaultSection) :=
  foldl_append_concatAll defaultSection l.enum ""

/-! ## Reconciliation lemmas -/

/-- The reconciled list is the pointwise `refreshEntry` image of the
input; in particular it has the same length and order. -/
theorem checkAndRefreshCache_snd (env : Env) (l : List Source) :
    ∀ st, (checkAndRefreshCache env st l).2 = l.map (refreshEntry env) := by
  induction l with
  | nil => intro st; rfl
  | cons s rest ih =>
    intro st
    have hmap : (s :: rest).map (refreshEntry env)
        = refreshEntry env s :: rest.map (refreshEntry env) := rfl
    rw [hmap]
    cases h : detectCacheMiss env s with
    | error e => simp [checkAndRefreshCache, refreshEntry, h, ih]
    | ok p =>
      obtain ⟨needs, fresh⟩ := p
      cases needs with
      | false => simp [checkAndRefreshCache, refreshEntry, h, ih]
      | true =>
        by_cases hu : env.updateFails s.id <;>
          simp [checkAndRefreshCache, refreshEntry, h, hu, ih]

/-- Reconciliation of a concatenation runs the second part in the store
left by the first. -/
theorem checkAndRefreshCache_append (env : Env) (l1 l2 : List Source) :
    ∀ st, checkAndRefreshCache env st (l1 ++ l2) =
      ((checkAndRefreshCache env (checkAndRefreshCache env st l1).1 l2).1,
       (checkAndRefreshCache env st l1).2 ++
         (checkAndRefreshCache env (checkAndRefreshCache env st l1).1 l2).2) := by
  induction l1 with
  | nil => intro st; simp [checkAndRefreshCache]
  | cons s rest ih =>
    intro st
    cases h : detectCacheMiss env s with
    | error e => simp [checkAndRefreshCache, h, ih]
    | ok p =>
      obtain ⟨needs, fresh⟩ := p
      cases needs with
      | false => simp [checkAndRefreshCache, h, ih]
      | true =>
        by_cases hu : env.updateFails s.id <;>
          simp [checkAndRefreshCache, h, hu, ih]

/-- Reconciliation never renames a source. -/
theorem refreshEntry_name (env : Env) (s : Source) :
    (refreshEntry env s).name = s.name := by
  unfold refreshEntry
  cases h : detectCacheMiss env s with
  | error e => rfl
  | ok p =>
    obtain ⟨needs, fresh⟩ := p
    cases needs with
    | false => rfl
    | true => by_cases hu : env.updateFails s.id <;> simp [hu]

/-- A failing fetch makes `detectCacheMiss` fail. -/
theorem detectCacheMiss_error_of_fetch_error (env : Env) (s : Source)
    (e : String) (h : fetchOf env s = .error e) :
    ∃ e', detectCacheMiss env s = .error e' := by
  unfold fetchOf at h
  unfold detectCacheMiss
  by_cases h1 : s.sourceType = "file"
  · simp only [if_pos h1] at h ⊢
    rw [h]
    exact ⟨_, rfl⟩
  · by_cases h2 : s.sourceType = "url" ∨ s.sourceType = "bookmark"
    · simp only [if_neg h1, if_pos h2] at h ⊢
      rw [h]
      exact ⟨_, rfl⟩
    · simp only [if_neg h1, if_neg h2]
      exact ⟨_, rfl⟩

/-- On a failing fetch, reconciliation keeps the cached row unchanged. -/
theorem refreshEntry_of_fetch_error (env : Env) (s : Source) (e : String)
    (h : fetchOf env s = .error e) : refreshEntry env s = s := by
  obtain ⟨e', h'⟩ := detectCacheMiss_error_of_fetch_error env s e h
  unfold refreshEntry
  rw [h']

/-- When the fresh content is byte-identical to the cached content (and
the stored fingerprint is consistent), no cache miss is detected. -/
theorem detectCacheMiss_no_miss (env : Env) (s : Source)
    (hfetch : fetchOf env s = .ok s.content)
    (hinv : s.hash = ComputeHash s.content) :
    detectCacheMiss env s = .ok (false, "") := by
  unfold fetchOf at hfetch
  unfold detectCacheMiss
  by_cases h1 : s.sourceType = "file"
  · simp only [if_pos h1] at hfetch ⊢
    rw [hfetch]
    simp [hinv]
  · by_cases h2 : s.sourceType = "url" ∨ s.sourceType = "bookmark"
    · simp only [if_neg h1, if_pos h2] at hfetch ⊢
      rw [hfetch]
      simp [hinv]
    · simp only [if_neg h1, if_neg h2] at hfetch
      exact absurd hfetch (by simp)

/-- When the fetch succeeds with changed content, `detectCacheMiss`
reports a refresh carrying the fresh content. -/
theorem detectCacheMiss_miss (env : Env) (s : Source) (c : String)
    (hfetch : fetchOf env s = .ok c)
    (hne : ComputeHash c ≠ s.hash) :
    detectCacheMiss env s = .ok (true, c) := by
  unfold fetchOf at hfetch
  unfold detectCacheMiss
  by_cases h1 : s.sourceType = "file"
  · simp only [if_pos h1] at hfetch ⊢
    rw [hfetch]
    simp [hne]
  · by_cases h2 : s.sourceType = "url" ∨ s.sourceType = "bookmark"
    · simp only [if_neg h1, if_pos h2] at hfetch ⊢
      rw [hfetch]
      simp [hne]
    · simp only [if_neg h1, if_neg h2] at hfetch
      exact absurd hfetch (by simp)

/-- A source of unrecognized kind makes `detectCacheMiss` fail. -/
theorem detectCacheMiss_unknown (env : Env) (s : Source)
    (h1 : s.sourceType ≠ "file") (h2 : s.sourceType ≠ "url")
    (h3 : s.sourceType ≠ "bookmark") :
    detectCacheMiss env s = .error ("unknown source type: " ++ s.sourceType) := by
  unfold detectCacheMiss
  simp only [if_neg h1, if_neg (by simp [h2, h3] : ¬(s.sourceType = "url" ∨ s.sourceType = "bookmark"))]

/-- On a no-miss source at the head, the step writes nothing and passes
the row through unchanged. -/
theorem checkAndRefreshCache_cons_no_miss (env : Env) (s : Source)
    (hdet : detectCacheMiss env s = .ok (false, "")) (st : Store)
    (rest : List Source) :
    checkAndRefreshCache env st (s :: rest) =
      ((checkAndRefreshCache env st rest).1,
       s :: (checkAndRefreshCache env st rest).2) := by
  simp [checkAndRefreshCache, hdet]

/-! ## Hash-consistency preservation -/

/-- `UpdateSourceContent` with a digest-of-content pair preserves the
invariant. -/
theorem hashConsistent_update (st : Store) (c : String) (id now : Nat)
    (h : HashConsistent st) :
    HashConsistent (UpdateSourceContent st c (ComputeHash c) id now) := by
  intro s hs
  simp only [UpdateSourceContent, List.mem_map] at hs
  obtain ⟨t, ht, rfl⟩ := hs
  by_cases hid : (t.id == id) = true
  · simp [hid]
  · simp only [if_neg hid]
    exact h t ht

/-- `CreateSource` with a digest-of-content pair preserves the
invariant. -/
theorem hashConsistent_create (st : Store) (p : CreateSourceParams)
    (now : Nat) (st' : Store) (src : Source)
    (h : HashConsistent st) (hp : p.hash = ComputeHash p.content)
    (hc : CreateSource st p now = .ok (st', src)) : HashConsistent st' := by
  unfold CreateSource at hc
  split at hc
  · exact absurd hc (by simp)
  · split at hc
    · exact absurd hc (by simp)
    · split at hc
      · exact absurd hc (by simp)
      · simp only [Except.ok.injEq, Prod.mk.injEq] at hc
        obtain ⟨h1, h2⟩ := hc
        subst h1
        intro s hs
        simp only [List.mem_append, List.mem_singleton] at hs
        rcases hs with hs | rfl
        · exact h s hs
        · exact hp

/-- Reconciliation preserves the invariant on the store. -/
theorem hashConsistent_check (env : Env) (l : List Source) :
    ∀ st, HashConsistent st → HashConsistent (checkAndRefreshCache env st l).1 := by
  induction l with
  | nil => intro st h; exact h
  | cons s rest ih =>
    intro st h
    cases hd : detectCacheMiss env s with
    | error e => simpa [checkAndRefreshCache, hd] using ih st h
    | ok p =>
      obtain ⟨needs, fresh⟩ := p
      cases needs with
      | false => simpa [checkAndRefreshCache, hd] using ih st h
      | true =>
        by_cases hu : env.updateFails s.id
        · simpa [checkAndRefreshCache, hd, hu] using ih st h
        · simpa [checkAndRefreshCache, hd, hu] using
            ih (UpdateSourceContent st fresh (ComputeHash fresh) s.id env.now)
              (hashConsistent_update st fresh s.id env.now h)

/-- `CreateHistory` leaves the sources untouched. -/
theorem hashConsistent_history (st : Store) (pn : Option String)
    (op : String) (sc now : Nat) (h : HashConsistent st) :
    HashConsistent (CreateHistory st pn op sc now) := h

/-- The common tail of `add` preserves the invariant. -/
theorem hashConsistent_addSourceFinish (env : Env) (st : Store)
    (name ty path content : String) (enabled : Bool) (st' : Store)
    (msg : String) (h : HashConsistent st)
    (hr : addSourceFinish env st name ty path content enabled = .ok (st', msg)) :
    HashConsistent st' := by
  unfold addSourceFinish at hr
  simp only [] at hr
  cases hg : GetSourceByName st name with
  | some existing =>
    simp only [hg, Except.ok.injEq, Prod.mk.injEq] at hr
    rw [← hr.1]
    exact hashConsistent_update st content existing.id env.now h
  | none =>
    simp only [hg] at hr
    split at hr
    · exact absurd hr (by simp)
    · rename_i st2 created heq
      simp only [Except.ok.injEq, Prod.mk.injEq] at hr
      rw [← hr.1]
      exact hashConsistent_create st _ env.now st2 created h rfl heq

/-- The `add` command preserves the invariant. -/
theorem hashConsistent_addSource (env : Env) (st : Store)
    (sourceArg name : String) (enabled : Bool) (st' : Store) (msg : String)
    (h : HashConsistent st)
    (hr : addSource env st sourceArg name enabled = .ok (st', msg)) :
    HashConsistent st' := by
  unfold addSource at hr
  split at hr
  · cases hp : env.parseURL sourceArg with
    | error e => rw [hp] at hr; exact absurd hr (by simp)
    | ok content =>
      rw [hp] at hr
      exact hashConsistent_addSourceFinish env st name "url" sourceArg content
        enabled st' msg h hr
  · simp only [] at hr
    cases hp : env.parseFile (env.absPath sourceArg) with
    | error e => rw [hp] at hr; exact absurd hr (by simp)
    | ok content =>
      rw [hp] at hr
      exact hashConsistent_addSourceFinish env st name "file"
        (env.absPath sourceArg) content enabled st' msg h hr

/-- The TUI add action preserves the invariant. -/
theorem hashConsistent_tuiAddSource (env : Env) (st : Store)
    (name path : String) (st' : Store) (h : HashConsistent st)
    (hr : tuiAddSource env st name path = .ok st') : HashConsistent st' := by
  unfold tuiAddSource at hr
  split at hr
  · cases hp : env.parseURL path with
    | error e => rw [hp] at hr; exact absurd hr (by simp)
    | ok content =>
      rw [hp] at hr
      simp only [] at hr
      cases hg : GetSourceByName st name with
      | some existing =>
        simp only [hg, Except.ok.injEq] at hr
        rw [← hr]
        exact hashConsistent_update st content existing.id env.now h
      | none =>
        simp only [hg] at hr
        split at hr
        · exact absurd hr (by simp)
        · rename_i st2 created heq
          simp only [Except.ok.injEq] at hr
          rw [← hr]
          exact hashConsistent_create st _ env.now st2 created h rfl heq
  · simp only [] at hr
    cases hp : env.parseFile (env.absPath path) with
    | error e => rw [hp] at hr; exact absurd hr (by simp)
    | ok content =>
      rw [hp] at hr
      simp only [] at hr
      cases hg : GetSourceByName st name with
      | some existing =>
        simp only [hg, Except.ok.injEq] at hr
        rw [← hr]
        exact hashConsistent_update st content existing.id env.now h
      | none =>
        simp only [hg] at hr
        split at hr
        · exact absurd hr (by simp)
        · rename_i st2 created heq
          simp only [Except.ok.injEq] at hr
          rw [← hr]
          exact hashConsistent_create st _ env.now st2 created h rfl heq

/-- One bookmark-import step preserves the invariant. -/
theorem hashConsistent_importBookmarkStep (env : Env) (acc : Store × Nat)
    (b : Bookmark) (h : HashConsistent acc.1) :
    HashConsistent (importBookmarkStep env acc b).1 := by
  unfold importBookmarkStep
  cases hp : env.parseURL b.url with
  | error e => exact h
  | ok content =>
    cases hg : GetSourceByHash acc.1 (ComputeHash content) with
    | some t => simp only; rw [hg]; exact h
    | none =>
      simp only
      rw [hg]
      cases hc : CreateSource acc.1
          { name := b.title, sourceType := "bookmark", path := b.url,
            content := content, hash := ComputeHash content,
            enabled := 0 } env.now with
      | error e => exact h
      | ok pr =>
        exact hashConsistent_create acc.1 _ env.now pr.1 pr.2 h rfl (by rw [hc])

/-- Bookmark import preserves the invariant. -/
theorem hashConsistent_importBookmarks (env : Env) (bookmarks : List Bookmark) :
    ∀ acc : Store × Nat, HashConsistent acc.1 →
      HashConsistent (bookmarks.foldl (importBookmarkStep env) acc).1 := by
  induction bookmarks with
  | nil => intro acc h; exact h
  | cons b rest ih =>
    intro acc h
    exact ih (importBookmarkStep env acc b)
      (hashConsistent_importBookmarkStep env acc b h)

/-- `GenerateToString` preserves the invariant. -/
theorem hashConsistent_GenerateToString (env : Env) (st : Store)
    (format : String) (st' : Store) (doc : String) (h : HashConsistent st)
    (hr : GenerateToString env st format = .ok (st', doc)) :
    HashConsistent st' := by
  unfold GenerateToString at hr
  simp only [] at hr
  split at hr
  · exact absurd hr (by simp)
  · simp only [Except.ok.injEq, Prod.mk.injEq] at hr
    rw [← hr.1]
    exact hashConsistent_check env (ListEnabledSources st) st h

/-- `Generate` preserves the invariant. -/
theorem hashConsistent_Generate (env : Env) (st : Store)
    (opts : GenerateOptions) (st' : Store) (doc : String)
    (h : HashConsistent st)
    (hr : Generate env st opts = .ok (st', doc)) : HashConsistent st' := by
  unfold Generate at hr
  simp only [] at hr
  split at hr
  · exact absurd hr (by simp)
  · split at hr
    · exact absurd hr (by simp)
    · simp only [Except.ok.injEq, Prod.mk.injEq] at hr
      rw [← hr.1]
      have hc := hashConsistent_check env (ListEnabledSources st) st h
      split
      · exact hc
      · exact hashConsistent_history _ _ _ _ _ hc

/-! ## Claim theorems -/

/-- C2: after every successful source-writing operation (create via add
or bookmark import, re-add update, or refresh during generation), every
stored row's `hash` equals the SHA-256 digest of its stored `content`. -/
theorem c2_fingerprint_consistency (env : Env) (st : Store) (op : SourceOp)
    (st' : Store) (h : HashConsistent st) (hr : runOp env st op = some st') :
    HashConsistent st' := by
  cases op with
  | add sourceArg name enabled =>
    simp only [runOp] at hr
    cases ha : addSource env st sourceArg name enabled with
    | error e => rw [ha] at hr; exact absurd hr (by simp [Except.map, Except.toOption])
    | ok pr =>
      obtain ⟨st2, msg⟩ := pr
      rw [ha] at hr
      simp only [Except.map, Except.toOption, Option.some.injEq] at hr
      rw [← hr]
      exact hashConsistent_addSource env st sourceArg name enabled st2 msg h ha
  | tuiAdd name path =>
    simp only [runOp] at hr
    cases ha : tuiAddSource env st name path with
    | error e => rw [ha] at hr; exact absurd hr (by simp [Except.toOption])
    | ok st2 =>
      rw [ha] at hr
      simp only [Except.toOption, Option.some.injEq] at hr
      rw [← hr]
      exact hashConsistent_tuiAddSource env st name path st2 h ha
  | importBk bookmarks =>
    simp only [runOp] at hr
    simp only [Option.some.injEq] at hr
    rw [← hr]
    exact hashConsistent_importBookmarks env bookmarks (st, 0) h
  | genStr format =>
    simp only [runOp] at hr
    cases ha : GenerateToString env st format with
    | error e => rw [ha] at hr; exact absurd hr (by simp [Except.map, Except.toOption])
    | ok pr =>
      obtain ⟨st2, doc⟩ := pr
      rw [ha] at hr
      simp only [Except.map, Except.toOption, Option.some.injEq] at hr
      rw [← hr]
      exact hashConsistent_GenerateToString env st format st2 doc h ha
  | gen opts =>
    simp only [runOp] at hr
    cases ha : Generate env st opts with
    | error e => rw [ha] at hr; exact absurd hr (by simp [Except.map, Except.toOption])
    | ok pr =>
      obtain ⟨st2, doc⟩ := pr
      rw [ha] at hr
      simp only [Except.map, Except.toOption, Option.some.injEq] at hr
      rw [← hr]
      exact hashConsistent_Generate env st opts st2 doc h ha

/-- A concrete environment for witnesses: every fetch yields
"hello world", no injected failures. -/
def wEnv : Env :=
  { parseFile := fun _ => .ok "hello world",
    parseURL := fun _ => .ok "hello world",
    absPath := fun p => p,
    now := 42,
    renderTime := "2026-01-01T00:00:00Z",
    updateFails := fun _ => false,
    writeFails := false,
    historyFails := false }

/-- The empty store. -/
def emptyStore : Store := { sources := [], history := [] }

/-- The store produced by adding one file source to the empty store. -/
def c2WitnessStore : Store :=
  (runOp wEnv emptyStore (SourceOp.add "notes.txt" "notes" true)).getD emptyStore

/-- Witness for C2 at a concrete add operation. -/
theorem c2_fingerprint_consistency_witness : HashConsistent c2WitnessStore :=
  c2_fingerprint_consistency wEnv emptyStore
    (SourceOp.add "notes.txt" "notes" true) c2WitnessStore
    (by decide) (by rfl)

/-- Whether an `Except` result is a success. -/
def exceptIsOk {α : Type} : Except String α → Bool
  | .ok _ => true
  | .error _ => false

/-- C1: a source whose fetch fails is passed through reconciliation with
its cached content unchanged, at its original position, and the batch
generation still succeeds when at least one other enabled source is
fetchable. -/
theorem c1_fail_open (env : Env) (st : Store) (format : String) (i : Nat)
    (s : Source) (e : String)
    (hs : (ListEnabledSources st)[i]? = some s)
    (hfail : fetchOf env s = .error e)
    (_hother : ∃ j t, j ≠ i ∧ (ListEnabledSources st)[j]? = some t ∧
      exceptIsOk (fetchOf env t) = true) :
    (checkAndRefreshCache env st (ListEnabledSources st)).2[i]? = some s ∧
    exceptIsOk (GenerateToString env st format) = true := by
  constructor
  · rw [checkAndRefreshCache_snd env (ListEnabledSources st) st]
    rw [List.getElem?_map, hs]
    simp [refreshEntry_of_fetch_error env s e hfail]
  · have hlen : (ListEnabledSources st).length ≠ 0 := by
      obtain ⟨hlt, -⟩ := List.getElem?_eq_some.1 hs
      omega
    unfold GenerateToString
    simp only []
    rw [if_neg hlen]
    rfl

/-- A failing-fetch environment paired with a working one: source "a"
(a file at /a) cannot be fetched, source "b" (a file at /b) can. -/
def c1Env : Env :=
  { parseFile := fun p =>
      if p = "/b" then .ok "beta" else .error "no such file",
    parseURL := fun _ => .error "network down",
    absPath := fun p => p,
    now := 50,
    renderTime := "2026-01-01T00:00:00Z",
    updateFails := fun _ => false,
    writeFails := false,
    historyFails := false }

/-- Source "a": cached content "alpha", backing file unreadable. -/
def c1SrcA : Source :=
  { id := 1, name := "a", sourceType := "file", path := "/a",
    content := "alpha", hash := ComputeHash "alpha", enabled := 1,
    createdAt := 10, updatedAt := 10 }

/-- Source "b": cached content "beta-old", backing file readable. -/
def c1SrcB : Source :=
  { id := 2, name := "b", sourceType := "file", path := "/b",
    content := "beta-old", hash := ComputeHash "beta-old", enabled := 1,
    createdAt := 11, updatedAt := 11 }

/-- A store with the two sources of the C1 scenario. -/
def c1Store : Store := { sources := [c1SrcA, c1SrcB], history := [] }

/-- Witness for C1: with "a" unfetchable and "b" fetchable, "a" survives
reconciliation unchanged and generation succeeds. -/
theorem c1_fail_open_witness :
    (checkAndRefreshCache c1Env c1Store (ListEnabledSources c1Store)).2[0]? =
      some c1SrcA ∧
    exceptIsOk (GenerateToString c1Env c1Store "claude") = true :=
  c1_fail_open c1Env c1Store "claude" 0 c1SrcA "no such file"
    (by decide) (by rfl)
    ⟨1, c1SrcB, by decide, by decide, by rfl⟩

/-- C4: with zero enabled sources, both generation entry points fail with
the empty-source-set error and produce no document. -/
theorem c4_empty_set_rejection (env : Env) (st : Store) (format : String)
    (opts : GenerateOptions) (h : ListEnabledSources st = []) :
    GenerateToString env st format = .error "no enabled sources found" ∧
    Generate env st opts = .error "no enabled sources found" := by
  constructor
  · unfold GenerateToString
    rw [h]
    rfl
  · unfold Generate
    rw [h]
    rfl

/-- A store whose only source is disabled. -/
def c4Store : Store :=
  { sources :=
      [{ id := 1, name := "off", sourceType := "file", path := "/off",
         content := "x", hash := ComputeHash "x", enabled := 0,
         createdAt := 5, updatedAt := 5 }],
    history := [] }

/-- Witness for C4 at a store with one disabled source. -/
theorem c4_empty_set_rejection_witness :
    GenerateToString wEnv c4Store "claude" = .error "no enabled sources found" ∧
    Generate wEnv c4Store
        { outputPath := "/out.md", format := "claude", presetName := "" } =
      .error "no enabled sources found" :=
  c4_empty_set_rejection wEnv c4Store "claude"
    { outputPath := "/out.md", format := "claude", presetName := "" }
    (by decide)

/-- C5: a source whose fresh fetch is byte-identical to its cached
content (so the fingerprints agree) is reconciled with zero store writes
for that source — the store is threaded past it unchanged — and its
reconciled entry equals the stored record. -/
theorem c5_noop_refresh (env : Env) (s : Source)
    (hfetch : fetchOf env s = .ok s.content)
    (hinv : s.hash = ComputeHash s.content) :
    detectCacheMiss env s = .ok (false, "") ∧
    refreshEntry env s = s ∧
    ∀ (st : Store) (pre post : List Source),
      checkAndRefreshCache env st (pre ++ s :: post) =
        ((checkAndRefreshCache env
            (checkAndRefreshCache env st pre).1 post).1,
         (checkAndRefreshCache env st pre).2 ++
           s :: (checkAndRefreshCache env
              (checkAndRefreshCache env st pre).1 post).2) := by
  have hdet := detectCacheMiss_no_miss env s hfetch hinv
  refine ⟨hdet, ?_, ?_⟩
  · unfold refreshEntry
    rw [hdet]
    rfl
  · intro st pre post
    rw [checkAndRefreshCache_append env pre (s :: post) st]
    rw [checkAndRefreshCache_cons_no_miss env s hdet]

/-- The C5 scenario source: cached content matches its backing file. -/
def c5Src : Source :=
  { id := 3, name := "stable", sourceType := "file", path := "/stable",
    content := "same", hash := ComputeHash "same", enabled := 1,
    createdAt := 20, updatedAt := 20 }

/-- Environment in which /stable still holds "same". -/
def c5Env : Env :=
  { parseFile := fun p => if p = "/stable" then .ok "same" else .error "no such file",
    parseURL := fun _ => .error "network down",
    absPath := fun p => p,
    now := 60,
    renderTime := "2026-01-01T00:00:00Z",
    updateFails := fun _ => false,
    writeFails := false,
    historyFails := false }

/-- A one-source store for the C5 witness. -/
def c5Store : Store := { sources := [c5Src], history := [] }

/-- Witness for C5: refreshing the byte-identical source writes nothing
and returns the stored record unchanged. -/
theorem c5_noop_refresh_witness :
    detectCacheMiss c5Env c5Src = .ok (false, "") ∧
    refreshEntry c5Env c5Src = c5Src ∧
    checkAndRefreshCache c5Env c5Store ([] ++ c5Src :: []) =
      ((checkAndRefreshCache c5Env
          (checkAndRefreshCache c5Env c5Store []).1 []).1,
       (checkAndRefreshCache c5Env c5Store []).2 ++
         c5Src :: (checkAndRefreshCache c5Env
            (checkAndRefreshCache c5Env c5Store []).1 []).2) := by
  have h := c5_noop_refresh c5Env c5Src (by rfl) (by decide)
  exact ⟨h.1, h.2.1, h.2.2 c5Store [] []⟩



/-- C3: enabled sources list in creation order (created-at ascending),
reconciliation preserves that order (same names at the same positions),
and each format renders one section per source in exactly the input list
order — composition never re-sorts. -/
theorem c3_ordering_preservation (env : Env) (st : Store)
    (hmono : st.sources.Pairwise fun a b => a.createdAt ≤ b.createdAt) :
    ListEnabledSources st = (st.sources.filter fun s => s.enabled == 1) ∧
    ((ListEnabledSources st).Pairwise fun a b => a.createdAt ≤ b.createdAt) ∧
    ((checkAndRefreshCache env st (ListEnabledSources st)).2.map fun s => s.name)
      = ((ListEnabledSources st).map fun s => s.name) ∧
    (∀ l : List Source,
      generateClaudeFormat l = claudeHeader ++ concatAll (l.enum.map claudeSection)) ∧
    (∀ (t : String) (l : List Source),
      generateCursorFormat t l = cursorHeader t ++ concatAll (l.map cursorSection)) ∧
    (∀ l : List Source,
      generateDefaultFormat l = "" ++ concatAll (l.enum.map defaultSection)) := by
  have hp : (st.sources.filter fun s => s.enabled == 1).Pairwise
      (fun a b => a.createdAt ≤ b.createdAt) :=
    List.Pairwise.sublist (List.filter_sublist _) hmono
  have h1 : ListEnabledSources st = (st.sources.filter fun s => s.enabled == 1) :=
    List.Sorted.insertionSort_eq hp
  refine ⟨h1, ?_, ?_, generateClaudeFormat_sections,
    generateCursorFormat_sections, generateDefaultFormat_sections⟩
  · rw [h1]; exact hp
  · rw [checkAndRefreshCache_snd env (ListEnabledSources st) st, List.map_map]
    exact List.map_congr_left fun s _ => refreshEntry_name env s

/-- Witness for C3 on the two-source store, with the claude sections
instantiated at a concrete singleton list. -/
theorem c3_ordering_preservation_witness :
    ListEnabledSources c1Store = (c1Store.sources.filter fun s => s.enabled == 1) ∧
    ((checkAndRefreshCache c1Env c1Store (ListEnabledSources c1Store)).2.map
        fun s => s.name)
      = ((ListEnabledSources c1Store).map fun s => s.name) ∧
    generateClaudeFormat [c5Src]
      = claudeHeader ++ concatAll ([c5Src].enum.map claudeSection) := by
  have h := c3_ordering_preservation c1Env c1Store (by decide)
  exact ⟨h.1, h.2.2.1, h.2.2.2.1 [c5Src]⟩

/-- A detection error leaves the cached row untouched. -/
theorem refreshEntry_of_detect_error (env : Env) (s : Source) (e : String)
    (h : detectCacheMiss env s = .error e) : refreshEntry env s = s := by
  unfold refreshEntry
  rw [h]

/-- A refresh whose cache write fails leaves the cached row untouched. -/
theorem refreshEntry_of_update_failure (env : Env) (s : Source) (c : String)
    (hdet : detectCacheMiss env s = .ok (true, c))
    (hw : env.updateFails s.id = true) : refreshEntry env s = s := by
  unfold refreshEntry
  rw [hdet]
  simp [hw]

/-- Bool-valued substring test on character lists. -/
def containsSub (needle : List Char) : List Char → Bool
  | [] => needle.isEmpty
  | c :: rest => needle.isPrefixOf (c :: rest) || containsSub needle rest

/-- The document of a generation result ("" when it failed). -/
def docOf (r : Except String (Store × String)) : String :=
  match r with
  | .ok (_, d) => d
  | .error _ => ""

/-- The C6 scenario: an enabled source with the unrecognized kind
"rss". -/
def c6BadSrc : Source :=
  { id := 7, name := "weird", sourceType := "rss", path := "/w",
    content := "cached rss", hash := ComputeHash "cached rss", enabled := 1,
    createdAt := 30, updatedAt := 30 }

/-- A store holding only the unrecognized-kind source. -/
def c6Store : Store := { sources := [c6BadSrc], history := [] }

/-- Counterexample to C6 as stated: the unrecognized-kind source is NOT
excluded — it stays in the reconciled result and its cached content
appears verbatim in the composed output. -/
theorem c6_unrecognized_counterexample :
    c6BadSrc ∈ (checkAndRefreshCache wEnv c6Store (ListEnabledSources c6Store)).2 ∧
    containsSub c6BadSrc.content.data
      (docOf (GenerateToString wEnv c6Store "claude")).data = true := by
  constructor
  · decide
  · decide

/-- C6 (amended): an enabled source of unrecognized kind yields a
per-source error that does not abort the batch, but the source is
retained in the reconciled result with its cached content unchanged (it
appears in the composed output) rather than excluded. -/
theorem c6_unrecognized_kind_retained (env : Env) (st : Store)
    (format : String) (i : Nat) (s : Source)
    (hs : (ListEnabledSources st)[i]? = some s)
    (h1 : s.sourceType ≠ "file") (h2 : s.sourceType ≠ "url")
    (h3 : s.sourceType ≠ "bookmark") :
    detectCacheMiss env s = .error ("unknown source type: " ++ s.sourceType) ∧
    (checkAndRefreshCache env st (ListEnabledSources st)).2[i]? = some s ∧
    exceptIsOk (GenerateToString env st format) = true := by
  have hdet := detectCacheMiss_unknown env s h1 h2 h3
  refine ⟨hdet, ?_, ?_⟩
  · rw [checkAndRefreshCache_snd env (ListEnabledSources st) st]
    rw [List.getElem?_map, hs]
    simp [refreshEntry_of_detect_error env s _ hdet]
  · have hlen : (ListEnabledSources st).length ≠ 0 := by
      obtain ⟨hlt, -⟩ := List.getElem?_eq_some.1 hs
      omega
    unfold GenerateToString
    simp only []
    rw [if_neg hlen]
    rfl

/-- Witness for the amended C6 at the concrete "rss" source. -/
theorem c6_unrecognized_kind_retained_witness :
    detectCacheMiss wEnv c6BadSrc = .error ("unknown source type: " ++ c6BadSrc.sourceType) ∧
    (checkAndRefreshCache wEnv c6Store (ListEnabledSources c6Store)).2[0]? = some c6BadSrc ∧
    exceptIsOk (GenerateToString wEnv c6Store "claude") = true :=
  c6_unrecognized_kind_retained wEnv c6Store "claude" 0 c6BadSrc
    (by decide) (by decide) (by decide) (by decide)

/-- The C7 scenario source: cached "old content" at /f7. -/
def c7Src : Source :=
  { id := 9, name := "w7", sourceType := "file", path := "/f7",
    content := "old content", hash := ComputeHash "old content", enabled := 1,
    createdAt := 40, updatedAt := 40 }

/-- Environment for C7: the file now holds "new content" but every cache
write fails. -/
def c7Env : Env :=
  { parseFile := fun p => if p = "/f7" then .ok "new content" else .error "no such file",
    parseURL := fun _ => .error "network down",
    absPath := fun p => p,
    now := 70,
    renderTime := "2026-01-01T00:00:00Z",
    updateFails := fun _ => true,
    writeFails := false,
    historyFails := false }

/-- A one-source store for the C7 scenario. -/
def c7Store : Store := { sources := [c7Src], history := [] }

/-- Counterexample to C7 as stated: the fetch succeeds with changed
content and the write fails, yet the reconciled entry carries the OLD
cached content, not the newly fetched one. -/
theorem c7_write_failure_counterexample :
    c7Env.parseFile c7Src.path = .ok "new content" ∧
    ComputeHash "new content" ≠ c7Src.hash ∧
    c7Env.updateFails c7Src.id = true ∧
    ((checkAndRefreshCache c7Env c7Store [c7Src]).2.map fun s => s.content)
      = ["old content"] ∧
    ("old content" : String) ≠ "new content" := by
  exact ⟨rfl, by decide, rfl, by decide, by decide⟩

/-- C7 (amended): when the fetch succeeds with changed content but the
persistence write fails, reconciliation is non-fatal to the batch, but
the reconciled entry keeps the previously cached content unchanged — the
newly fetched in-memory content is discarded for this composition. -/
theorem c7_write_failure_keeps_cached (env : Env) (st : Store)
    (format : String) (i : Nat) (s : Source) (c : String)
    (hs : (ListEnabledSources st)[i]? = some s)
    (hfetch : fetchOf env s = .ok c)
    (hchanged : ComputeHash c ≠ s.hash)
    (hw : env.updateFails s.id = true) :
    (checkAndRefreshCache env st (ListEnabledSources st)).2[i]? = some s ∧
    exceptIsOk (GenerateToString env st format) = true := by
  have hdet := detectCacheMiss_miss env s c hfetch hchanged
  constructor
  · rw [checkAndRefreshCache_snd env (ListEnabledSources st) st]
    rw [List.getElem?_map, hs]
    simp [refreshEntry_of_update_failure env s c hdet hw]
  · have hlen : (ListEnabledSources st).length ≠ 0 := by
      obtain ⟨hlt, -⟩ := List.getElem?_eq_some.1 hs
      omega
    unfold GenerateToString
    simp only []
    rw [if_neg hlen]
    rfl

/-- Witness for the amended C7 at the concrete write-failure scenario. -/
theorem c7_write_failure_keeps_cached_witness :
    (checkAndRefreshCache c7Env c7Store (ListEnabledSources c7Store)).2[0]? = some c7Src ∧
    exceptIsOk (GenerateToString c7Env c7Store "claude") = true :=
  c7_write_failure_keeps_cached c7Env c7Store "claude" 0 c7Src "new content"
    (by decide) (by rfl) (by decide) (by rfl)

/-- Counterexample to C8 as stated: on the empty store, removing or
toggling a nonexistent name succeeds — no NotFound error is surfaced. -/
theorem c8_notfound_counterexample :
    exceptIsOk (removeSource emptyStore "ghost") = true ∧
    exceptIsOk (toggleOn wEnv emptyStore "ghost") = true ∧
    exceptIsOk (toggleOff wEnv emptyStore "ghost") = true := by
  exact ⟨rfl, rfl, rfl⟩

/-- C8 (amended): delete(name) and setEnabled(name, bool) on a name that
does not exist succeed as no-ops — the store is unchanged and no error is
surfaced to the caller. -/
theorem c8_missing_name_noop (env : Env) (st : Store) (name : String)
    (h : ∀ r ∈ st.sources, r.name ≠ name) :
    removeSource st name = .ok st ∧
    toggleOn env st name = .ok st ∧
    toggleOff env st name = .ok st := by
  have hmap : ∀ e : Nat, UpdateSourceEnabled st e name env.now = st := by
    intro e
    unfold UpdateSourceEnabled
    have : (st.sources.map fun s =>
        if s.name == name then { s with enabled := e, updatedAt := env.now }
        else s) = st.sources := by
      have := List.map_congr_left (l := st.sources)
        (f := fun s => if s.name == name
          then { s with enabled := e, updatedAt := env.now } else s)
        (g := id) (fun s hs => by simp [h s hs])
      simpa using this
    rw [this]
  have hdel : DeleteSource st name = st := by
    unfold DeleteSource
    have : (st.sources.filter fun s => ¬(s.name == name)) = st.sources :=
      List.filter_eq_self.2 fun s hs => by simp [h s hs]
    rw [this]
  refine ⟨?_, ?_, ?_⟩
  · unfold removeSource; rw [hdel]
  · unfold toggleOn; rw [hmap 1]
  · unfold toggleOff; rw [hmap 0]

/-- Witness for the amended C8 on the empty store. -/
theorem c8_missing_name_noop_witness :
    removeSource emptyStore "ghost" = .ok emptyStore ∧
    toggleOn wEnv emptyStore "ghost" = .ok emptyStore ∧
    toggleOff wEnv emptyStore "ghost" = .ok emptyStore :=
  c8_missing_name_noop wEnv emptyStore "ghost" (by decide)

/-- Re-adding an existing name reduces to an in-place content update. -/
theorem addSource_readd_eq (env : Env) (st : Store) (sourceArg name : String)
    (enabled : Bool) (s : Source) (c : String)
    (hs : GetSourceByName st name = some s)
    (hc : cliFetch env sourceArg = .ok c) :
    addSource env st sourceArg name enabled =
      .ok (UpdateSourceContent st c (ComputeHash c) s.id env.now,
           "Updated source: " ++ name) := by
  unfold cliFetch at hc
  unfold addSource
  by_cases hcond :
      (hasPrefixStr sourceArg "http://" || hasPrefixStr sourceArg "https://") = true
  · rw [if_pos hcond] at hc ⊢
    rw [hc]
    unfold addSourceFinish
    simp only []
    rw [hs]
  · rw [if_neg hcond] at hc ⊢
    simp only []
    rw [hc]
    unfold addSourceFinish
    simp only []
    rw [hs]

/-- The TUI re-add of an existing name reduces to the same in-place
update. -/
theorem tuiAddSource_readd_eq (env : Env) (st : Store)
    (pathArg name : String) (s : Source) (c : String)
    (hs : GetSourceByName st name = some s)
    (hc : cliFetch env pathArg = .ok c) :
    tuiAddSource env st name pathArg =
      .ok (UpdateSourceContent st c (ComputeHash c) s.id env.now) := by
  unfold cliFetch at hc
  unfold tuiAddSource
  by_cases hcond :
      (hasPrefixStr pathArg "http://" || hasPrefixStr pathArg "https://") = true
  · rw [if_pos hcond] at hc ⊢
    rw [hc]
    simp only []
    rw [hs]
  · rw [if_neg hcond] at hc ⊢
    simp only []
    rw [hc]
    simp only []
    rw [hs]

/-- A content update never changes the list of names. -/
theorem UpdateSourceContent_names (st : Store) (c hsh : String)
    (id now : Nat) :
    ((UpdateSourceContent st c hsh id now).sources.map fun r => r.name)
      = st.sources.map fun r => r.name := by
  unfold UpdateSourceContent
  simp only [List.map_map]
  apply List.map_congr_left
  intro r _
  by_cases hid : (r.id == id) = true <;> simp [Function.comp, hid]

/-- Row-wise equality of all fields except content, hash and
updated_at. -/
def frameEq (a b : Source) : Prop :=
  a.id = b.id ∧ a.name = b.name ∧ a.sourceType = b.sourceType ∧
  a.path = b.path ∧ a.enabled = b.enabled ∧ a.createdAt = b.createdAt

/-- A content update preserves every field other than content, hash and
updated_at, row by row. -/
theorem UpdateSourceContent_frame (st : Store) (c hsh : String)
    (id now : Nat) :
    List.Forall₂ frameEq st.sources
      (UpdateSourceContent st c hsh id now).sources := by
  unfold UpdateSourceContent
  simp only []
  rw [List.forall₂_map_right_iff, List.forall₂_same]
  intro r _
  by_cases hid : (r.id == id) = true <;> simp [frameEq, hid]

/-- C9: adding a source whose name already exists surfaces no error and
creates no duplicate — the existing record is updated in place via
`UpdateSourceContent`, and the stored name list (hence name uniqueness)
is unchanged. -/
theorem c9_readd_updates_in_place (env : Env) (st : Store)
    (sourceArg name : String) (enabled : Bool) (s : Source) (c : String)
    (hs : GetSourceByName st name = some s)
    (hc : cliFetch env sourceArg = .ok c) :
    addSource env st sourceArg name enabled =
      .ok (UpdateSourceContent st c (ComputeHash c) s.id env.now,
           "Updated source: " ++ name) ∧
    ((UpdateSourceContent st c (ComputeHash c) s.id env.now).sources.map
        fun r => r.name)
      = (st.sources.map fun r => r.name) :=
  ⟨addSource_readd_eq env st sourceArg name enabled s c hs hc,
   UpdateSourceContent_names st c (ComputeHash c) s.id env.now⟩

/-- The C9 scenario: a store already holding a source named "notes". -/
def c9Src : Source :=
  { id := 1, name := "notes", sourceType := "file", path := "/old/notes.txt",
    content := "old", hash := ComputeHash "old", enabled := 1,
    createdAt := 9, updatedAt := 9 }

/-- A one-source store for the C9 witness. -/
def c9Store : Store := { sources := [c9Src], history := [] }

/-- Witness for C9 at a concrete re-add. -/
theorem c9_readd_updates_in_place_witness :
    addSource wEnv c9Store "notes.txt" "notes" true =
      .ok (UpdateSourceContent c9Store "hello world"
             (ComputeHash "hello world") c9Src.id wEnv.now,
           "Updated source: " ++ "notes") ∧
    ((UpdateSourceContent c9Store "hello world" (ComputeHash "hello world")
        c9Src.id wEnv.now).sources.map fun r => r.name)
      = (c9Store.sources.map fun r => r.name) :=
  c9_readd_updates_in_place wEnv c9Store "notes.txt" "notes" true c9Src
    "hello world" (by rfl) (by rfl)

/-- C10: re-adding an existing name — through the CLI or the TUI —
changes only content, hash and updated_at: id, name, source_type, path,
enabled and created_at are untouched, row by row, even when the re-add
supplies a different path or detected source type. -/
theorem c10_readd_frame (env : Env) (st : Store)
    (sourceArg name pathArg : String) (enabled : Bool) (s : Source)
    (c c2 : String)
    (hs : GetSourceByName st name = some s)
    (hc : cliFetch env sourceArg = .ok c)
    (hc2 : cliFetch env pathArg = .ok c2) :
    (∀ st' msg, addSource env st sourceArg name enabled = .ok (st', msg) →
      List.Forall₂ frameEq st.sources st'.sources) ∧
    (∀ st', tuiAddSource env st name pathArg = .ok st' →
      List.Forall₂ frameEq st.sources st'.sources) := by
  constructor
  · intro st' msg hr
    rw [addSource_readd_eq env st sourceArg name enabled s c hs hc] at hr
    simp only [Except.ok.injEq, Prod.mk.injEq] at hr
    rw [← hr.1]
    exact UpdateSourceContent_frame st c (ComputeHash c) s.id env.now
  · intro st' hr
    rw [tuiAddSource_readd_eq env st pathArg name s c2 hs hc2] at hr
    simp only [Except.ok.injEq] at hr
    rw [← hr]
    exact UpdateSourceContent_frame st c2 (ComputeHash c2) s.id env.now

/-- The C10 scenario: the stored row is a `url` source, later re-added
from a plain file argument. -/
def c10Src : Source :=
  { id := 4, name := "doc", sourceType := "url",
    path := "http://orig.example/doc", content := "old remote",
    hash := ComputeHash "old remote", enabled := 1,
    createdAt := 8, updatedAt := 8 }

/-- A one-source store for the C10 witness. -/
def c10Store : Store := { sources := [c10Src], history := [] }

/-- Witness for C10: the concrete re-add (with a different path and
detected type "file") leaves all frame fields unchanged. -/
theorem c10_readd_frame_witness :
    List.Forall₂ frameEq c10Store.sources
      (UpdateSourceContent c10Store "hello world"
        (ComputeHash "hello world") c10Src.id wEnv.now).sources :=
  (c10_readd_frame wEnv c10Store "local.txt" "doc" "files/doc.md" true
      c10Src "hello world" "hello world" (by rfl) (by rfl) (by rfl)).1
    (UpdateSourceContent c10Store "hello world"
      (ComputeHash "hello world") c10Src.id wEnv.now)
    ("Updated source: " ++ "doc") (by rfl)
